import Mathlib

/-!
Verification of the in-memory card repository and exchange (export/import)
module of the narrative-cards worldbuilding tool (`src/app.js`).

The JavaScript `DataStore` class and the `exportCards` / `importCards`
functions are shallowly embedded below.  Cards are JS objects whose field
set is fixed by the application (form handlers and renderers only ever read
or write the fields listed in the `Card` structure); optional fields are
modelled with `Option`.  Nondeterministic inputs of the source — `Date.now`,
`Math.random` inside `generateId`, and `new Date().toISOString()` — are
passed in as explicit arguments.
-/

set_option autoImplicit false

namespace CardStore

/-- A card object.  `id`, `createdAt`, `updatedAt` are always present on any
card produced by `createCard` or `importCards`; every other field is present
only when some caller supplied it (`Option`). -/
structure Card where
  id : String
  type : Option String := none
  name : Option String := none
  description : Option String := none
  image : Option String := none
  imagePositionX : Option Int := none
  imagePositionY : Option Int := none
  imagePosition : Option String := none
  consequences : Option String := none
  hooks : Option String := none
  adjacentLocations : Option (List String) := none
  presentCharacters : Option (List String) := none
  occupation : Option String := none
  age : Option String := none
  appearance : Option String := none
  personality : Option String := none
  history : Option String := none
  secrets : Option String := none
  bonds : Option (List String) := none
  createdAt : String
  updatedAt : String
deriving DecidableEq

/-- A caller-supplied field set (the `cardData` argument of `createCard` /
`updateCard`): any subset of a card's fields.  `some v` means the field is
present in the object literal, `none` that it is absent. -/
structure PartialCard where
  id : Option String := none
  type : Option String := none
  name : Option String := none
  description : Option String := none
  image : Option String := none
  imagePositionX : Option Int := none
  imagePositionY : Option Int := none
  imagePosition : Option String := none
  consequences : Option String := none
  hooks : Option String := none
  adjacentLocations : Option (List String) := none
  presentCharacters : Option (List String) := none
  occupation : Option String := none
  age : Option String := none
  appearance : Option String := none
  personality : Option String := none
  history : Option String := none
  secrets : Option String := none
  bonds : Option (List String) := none
  createdAt : Option String := none
  updatedAt : Option String := none
deriving DecidableEq

/-- The id generator `generateId`: `'card_' + Date.now() + '_' + Math.random().toString(36).substr(2, 9)`.
The clock value and the random suffix are explicit inputs. -/
def generateId (nowMs : Nat) (rand : String) : String :=
  "card_" ++ toString nowMs ++ "_" ++ rand

/-- Operation `createCard(cardData)`: builds `{id, createdAt, updatedAt, ...cardData}` —
the caller-supplied fields are spread over the generated defaults, so a field
present in `cardData` (including `id`) overrides the default — then pushes the
new card and returns it.  `genId` is the value returned by `generateId`, `now`
the ISO timestamp of the two `new Date()` calls. -/
def createCard (genId now : String) (d : PartialCard) (cards : List Card) :
    Card × List Card :=
  let card : Card :=
    { id := d.id.getD genId
      type := d.type
      name := d.name
      description := d.description
      image := d.image
      imagePositionX := d.imagePositionX
      imagePositionY := d.imagePositionY
      imagePosition := d.imagePosition
      consequences := d.consequences
      hooks := d.hooks
      adjacentLocations := d.adjacentLocations
      presentCharacters := d.presentCharacters
      occupation := d.occupation
      age := d.age
      appearance := d.appearance
      personality := d.personality
      history := d.history
      secrets := d.secrets
      bonds := d.bonds
      createdAt := d.createdAt.getD now
      updatedAt := d.updatedAt.getD now }
  (card, cards ++ [card])

/-- The shallow merge `{...stored, ...cardData, updatedAt: now}` of
`updateCard`: fields present in the partial replace the stored ones,
absent fields are retained, and `updatedAt` is set last. -/
def mergeCard (c : Card) (d : PartialCard) (now : String) : Card :=
  { id := d.id.getD c.id
    type := d.type <|> c.type
    name := d.name <|> c.name
    description := d.description <|> c.description
    image := d.image <|> c.image
    imagePositionX := d.imagePositionX <|> c.imagePositionX
    imagePositionY := d.imagePositionY <|> c.imagePositionY
    imagePosition := d.imagePosition <|> c.imagePosition
    consequences := d.consequences <|> c.consequences
    hooks := d.hooks <|> c.hooks
    adjacentLocations := d.adjacentLocations <|> c.adjacentLocations
    presentCharacters := d.presentCharacters <|> c.presentCharacters
    occupation := d.occupation <|> c.occupation
    age := d.age <|> c.age
    appearance := d.appearance <|> c.appearance
    personality := d.personality <|> c.personality
    history := d.history <|> c.history
    secrets := d.secrets <|> c.secrets
    bonds := d.bonds <|> c.bonds
    createdAt := d.createdAt.getD c.createdAt
    updatedAt := now }

/-- JS `Array.prototype.findIndex`: index of the first element satisfying `p`. -/
def findIndex (p : Card → Bool) : List Card → Option Nat
  | [] => none
  | c :: cs => if p c then some 0 else (findIndex p cs).map (· + 1)

/-- Operation `updateCard(id, cardData)`: locates the first card with `id`, replaces it
in place by the shallow merge, returns the updated card; returns `null`
(modelled `none`) and leaves the collection alone when no card matches. -/
def updateCard (now id : String) (d : PartialCard) (cards : List Card) :
    Option Card × List Card :=
  match findIndex (fun c => c.id == id) cards with
  | some i =>
    match cards[i]? with
    | some c => (some (mergeCard c d now), cards.set i (mergeCard c d now))
    | none => (none, cards)
  | none => (none, cards)

/-- The reference-cleanup step of `deleteCard`: strips `id` from the
`adjacentLocations`, `presentCharacters` and `bonds` lists of a card,
when those lists are present. -/
def stripRefs (id : String) (c : Card) : Card :=
  { c with
    adjacentLocations := c.adjacentLocations.map (fun l => l.filter (fun x => x != id))
    presentCharacters := c.presentCharacters.map (fun l => l.filter (fun x => x != id))
    bonds := c.bonds.map (fun l => l.filter (fun x => x != id)) }

/-- Operation `deleteCard(id)`: if a card with `id` exists, first strips `id` from the
reference lists of every card, then splices the found card out and returns
`true`; otherwise returns `false` and changes nothing. -/
def deleteCard (id : String) (cards : List Card) : Bool × List Card :=
  match findIndex (fun c => c.id == id) cards with
  | some i => (true, (cards.map (stripRefs id)).eraseIdx i)
  | none => (false, cards)

/-- Operation `getCard(id)`: first card with the given id, or none. -/
def getCard (id : String) (cards : List Card) : Option Card :=
  cards.find? (fun c => c.id == id)

/-- Operation `getCardsByType(type)`. -/
def getCardsByType (t : String) (cards : List Card) : List Card :=
  cards.filter (fun c => c.type == some t)

/-- Operation `getAllCards()`. -/
def getAllCards (cards : List Card) : List Card := cards

/-- Character-list prefix test. -/
def charsStartsWith : List Char → List Char → Bool
  | [], _ => true
  | _ :: _, [] => false
  | a :: as, b :: bs => a == b && charsStartsWith as bs

/-- Character-list substring test: `needle` occurs contiguously in `hay`. -/
def charsContains (needle : List Char) : List Char → Bool
  | [] => charsStartsWith needle []
  | b :: bs => charsStartsWith needle (b :: bs) || charsContains needle bs

/-- JS `hay.includes(needle)`: substring containment. -/
def strIncludes (hay needle : String) : Bool :=
  charsContains needle.toList hay.toList

/-- JS `s.toLowerCase()`: characterwise lowering. -/
def strToLower (s : String) : String :=
  ⟨s.data.map Char.toLower⟩

/-- The per-card predicate of `searchCards`:
`card.name.toLowerCase().includes(q) || (card.description && card.description.toLowerCase().includes(q))`.
Reading `name` is unguarded — on a card without a `name` the expression
throws (`none`).  The `description` conjunct is guarded by truthiness, so an
empty-string description short-circuits to false. -/
def matchesQuery (lowerQuery : String) (c : Card) : Option Bool :=
  match c.name with
  | none => none
  | some n =>
    some (strIncludes (strToLower n) lowerQuery ||
      (match c.description with
       | some d => d != "" && strIncludes (strToLower d) lowerQuery
       | none => false))

/-- The filter loop of `searchCards`: keeps the matching cards in order,
propagating the failure of any card whose `name` is absent. -/
def filterMatches (lowerQuery : String) : List Card → Option (List Card)
  | [] => some []
  | c :: cs =>
    match matchesQuery lowerQuery c with
    | none => none
    | some b =>
      match filterMatches lowerQuery cs with
      | none => none
      | some r => some (if b then c :: r else r)

/-- Operation `searchCards(query)`: case-insensitive substring filter over name and
description; `none` models the thrown `TypeError` when some card has no name. -/
def searchCards (query : String) (cards : List Card) : Option (List Card) :=
  filterMatches (strToLower query) cards

/-- Operation `pushToHistory(cardId)`: push, then drop the oldest entry when the
length exceeds 20. -/
def pushToHistory (cardId : String) (h : List String) : List String :=
  let h' := h ++ [cardId]
  if h'.length > 20 then h'.tail else h'

/-- Operation `getLastFromHistory()`: pop from the top. -/
def getLastFromHistory (h : List String) : Option String × List String :=
  (h.getLast?, h.dropLast)

/-- The exported document `{version, exportDate, cards}`. -/
structure ExportDoc where
  version : String
  exportDate : String
  cards : List Card
deriving DecidableEq

/-- Operation `exportCards()`: refuses (toast, early return, no file) when the
collection is empty, otherwise wraps the full collection in a versioned
document.  The repository itself is untouched. -/
def exportCards (exportDate : String) (cards : List Card) : Option ExportDoc :=
  if cards.length = 0 then none
  else some { version := "1.0", exportDate := exportDate, cards := cards }

/-- The `cards` field of a parsed import payload: either an array of cards or
some non-array value (string, number, ...), which fails `Array.isArray`. -/
inductive CardsField where
  | arr (cs : List Card)
  | nonArray
deriving DecidableEq

/-- A decoded import file: either `JSON.parse` throws, or it yields an object
whose `cards` field may be absent (`none`) or present. -/
inductive ImportPayload where
  | unparsable
  | parsed (cards : Option CardsField)
deriving DecidableEq

/-- Outcome reported by `importCards`: the single invalid-file error toast,
or success with the count of imported cards. -/
inductive ImportResult where
  | malformedDocument
  | ok (imported : Nat)
deriving DecidableEq

/-- Lookup in the `idMapping` JS object.  The mapping is built by successive
assignments, so a later assignment to the same key wins: look the key up in
the reversed assignment list. -/
def mapLookup (m : List (String × String)) (k : String) : Option String :=
  List.lookup k m.reverse

/-- First import pass: `idMapping[card.id] = dataStore.generateId()` for each
incoming card, in order.  `fresh` is the stream of generated ids. -/
def buildIdMapping (cs : List Card) (fresh : List String) : List (String × String) :=
  (cs.zip fresh).map (fun p => (p.1.id, p.2))

/-- One entry of a reference list under `id => idMapping[id] || id`: the
mapped value when it exists and is truthy (non-empty), the original
otherwise. -/
def remapEntry (m : List (String × String)) (e : String) : String :=
  match mapLookup m e with
  | some n => if n == "" then e else n
  | none => e

/-- A whole reference list under `.map(id => idMapping[id] || id).filter(id => id)`. -/
def remapRefList (m : List (String × String)) (l : List String) : List String :=
  (l.map (remapEntry m)).filter (fun e => e != "")

/-- Second import pass on one card: copy it, overwrite its id from the
mapping, rewrite the three reference lists when present, and reset both
timestamps to import time. -/
def remapCard (m : List (String × String)) (now : String) (c : Card) : Card :=
  { c with
    id := (mapLookup m c.id).getD c.id
    adjacentLocations := c.adjacentLocations.map (remapRefList m)
    presentCharacters := c.presentCharacters.map (remapRefList m)
    bonds := c.bonds.map (remapRefList m)
    createdAt := now
    updatedAt := now }

/-- Operation `importCards`: reject the payload unless its `cards` field is an array
(`!data.cards || !Array.isArray(data.cards)` throws, caught as the single
invalid-file error, before any mutation); otherwise run the two passes and
push every remapped card.  `fresh` is the stream of `generateId` outputs
consumed by the first pass, `now` the import timestamp. -/
def importCards (fresh : List String) (now : String) (payload : ImportPayload)
    (cards : List Card) : ImportResult × List Card :=
  match payload with
  | .unparsable => (.malformedDocument, cards)
  | .parsed cf =>
    match cf with
    | some (.arr cs) =>
      let m := buildIdMapping cs fresh
      (.ok cs.length, cards ++ cs.map (remapCard m now))
    | some .nonArray => (.malformedDocument, cards)
    | none => (.malformedDocument, cards)

/-- Spec-side search predicate, written from the specification's words: the
card's name, or its description when present, contains the query as a
case-insensitive substring. -/
def specMatches (q : String) (c : Card) : Bool :=
  (match c.name with
   | some n => strIncludes (strToLower n) (strToLower q)
   | none => false) ||
  (match c.description with
   | some d => strIncludes (strToLower d) (strToLower q)
   | none => false)

/-- Frame relation for the delete cascade: `c'` agrees with `c` on every
field — including `updatedAt` — except that the deleted id `cid` is filtered
out of the three reference lists. -/
def refStripOnly (cid : String) (c c' : Card) : Prop :=
  c'.id = c.id ∧ c'.type = c.type ∧ c'.name = c.name ∧
  c'.description = c.description ∧ c'.image = c.image ∧
  c'.imagePositionX = c.imagePositionX ∧ c'.imagePositionY = c.imagePositionY ∧
  c'.imagePosition = c.imagePosition ∧ c'.consequences = c.consequences ∧
  c'.hooks = c.hooks ∧ c'.occupation = c.occupation ∧ c'.age = c.age ∧
  c'.appearance = c.appearance ∧ c'.personality = c.personality ∧
  c'.history = c.history ∧ c'.secrets = c.secrets ∧
  c'.createdAt = c.createdAt ∧ c'.updatedAt = c.updatedAt ∧
  c'.adjacentLocations = c.adjacentLocations.map (fun l => l.filter (fun x => x != cid)) ∧
  c'.presentCharacters = c.presentCharacters.map (fun l => l.filter (fun x => x != cid)) ∧
  c'.bonds = c.bonds.map (fun l => l.filter (fun x => x != cid))

/-- Relation stating `c'` agrees with `c` on every field other than `id`, `createdAt`,
`updatedAt` and the three reference lists (the fields import leaves
verbatim). -/
def sameNonRefFields (c c' : Card) : Prop :=
  c'.type = c.type ∧ c'.name = c.name ∧ c'.description = c.description ∧
  c'.image = c.image ∧ c'.imagePositionX = c.imagePositionX ∧
  c'.imagePositionY = c.imagePositionY ∧ c'.imagePosition = c.imagePosition ∧
  c'.consequences = c.consequences ∧ c'.hooks = c.hooks ∧
  c'.occupation = c.occupation ∧ c'.age = c.age ∧
  c'.appearance = c.appearance ∧ c'.personality = c.personality ∧
  c'.history = c.history ∧ c'.secrets = c.secrets

/-- The per-field description of the shallow merge performed by `updateCard`:
a field present in the partial replaces the stored one, an absent field is
retained (`createdAt` included), and `updatedAt` is refreshed to `now`. -/
def mergedFrame (c : Card) (d : PartialCard) (now : String) (c' : Card) : Prop :=
  c'.updatedAt = now ∧
  (d.id = none → c'.id = c.id) ∧ (∀ v, d.id = some v → c'.id = v) ∧
  (d.type = none → c'.type = c.type) ∧ (∀ v, d.type = some v → c'.type = some v) ∧
  (d.name = none → c'.name = c.name) ∧ (∀ v, d.name = some v → c'.name = some v) ∧
  (d.description = none → c'.description = c.description) ∧
  (∀ v, d.description = some v → c'.description = some v) ∧
  (d.image = none → c'.image = c.image) ∧ (∀ v, d.image = some v → c'.image = some v) ∧
  (d.imagePositionX = none → c'.imagePositionX = c.imagePositionX) ∧
  (∀ v, d.imagePositionX = some v → c'.imagePositionX = some v) ∧
  (d.imagePositionY = none → c'.imagePositionY = c.imagePositionY) ∧
  (∀ v, d.imagePositionY = some v → c'.imagePositionY = some v) ∧
  (d.imagePosition = none → c'.imagePosition = c.imagePosition) ∧
  (∀ v, d.imagePosition = some v → c'.imagePosition = some v) ∧
  (d.consequences = none → c'.consequences = c.consequences) ∧
  (∀ v, d.consequences = some v → c'.consequences = some v) ∧
  (d.hooks = none → c'.hooks = c.hooks) ∧ (∀ v, d.hooks = some v → c'.hooks = some v) ∧
  (d.adjacentLocations = none → c'.adjacentLocations = c.adjacentLocations) ∧
  (∀ v, d.adjacentLocations = some v → c'.adjacentLocations = some v) ∧
  (d.presentCharacters = none → c'.presentCharacters = c.presentCharacters) ∧
  (∀ v, d.presentCharacters = some v → c'.presentCharacters = some v) ∧
  (d.occupation = none → c'.occupation = c.occupation) ∧
  (∀ v, d.occupation = some v → c'.occupation = some v) ∧
  (d.age = none → c'.age = c.age) ∧ (∀ v, d.age = some v → c'.age = some v) ∧
  (d.appearance = none → c'.appearance = c.appearance) ∧
  (∀ v, d.appearance = some v → c'.appearance = some v) ∧
  (d.personality = none → c'.personality = c.personality) ∧
  (∀ v, d.personality = some v → c'.personality = some v) ∧
  (d.history = none → c'.history = c.history) ∧
  (∀ v, d.history = some v → c'.history = some v) ∧
  (d.secrets = none → c'.secrets = c.secrets) ∧
  (∀ v, d.secrets = some v → c'.secrets = some v) ∧
  (d.bonds = none → c'.bonds = c.bonds) ∧ (∀ v, d.bonds = some v → c'.bonds = some v) ∧
  (d.createdAt = none → c'.createdAt = c.createdAt) ∧
  (∀ v, d.createdAt = some v → c'.createdAt = v)

/-- Concrete sample cards used to instantiate the theorems below. -/
def sampleA : Card :=
  { id := "a", type := some "local", name := some "Tavern",
    adjacentLocations := some ["c"], createdAt := "t0", updatedAt := "t0" }

def sampleB : Card :=
  { id := "b", type := some "local", name := some "Market",
    presentCharacters := some ["c"], createdAt := "t0", updatedAt := "t0" }

def sampleC : Card :=
  { id := "c", type := some "personagem", name := some "Mira",
    createdAt := "t0", updatedAt := "t0" }

def sampleD : Card :=
  { id := "d", type := some "personagem", name := some "Theo",
    description := some "a quiet scribe", bonds := some ["c", "d"],
    createdAt := "t0", updatedAt := "t0" }

/-- The document produced by exporting `[sampleA, sampleC]` on date "d". -/
def sampleDoc : ExportDoc :=
  { version := "1.0", exportDate := "d", cards := [sampleA, sampleC] }

/-! ### Supporting lemmas -/

theorem eraseIdx_map_comm {α β : Type} (f : α → β) (l : List α) (i : Nat) :
    (l.map f).eraseIdx i = (l.eraseIdx i).map f := by
  induction l generalizing i with
  | nil => simp
  | cons a t ih =>
    cases i with
    | zero => simp [List.eraseIdx]
    | succ n => simp [List.eraseIdx, ih]

theorem getElem?_lt_length {α : Type} {l : List α} {i : Nat} {a : α}
    (h : l[i]? = some a) : i < l.length := by
  by_contra hge
  rw [List.getElem?_eq_none (Nat.le_of_not_lt hge)] at h
  exact Option.noConfusion h

theorem not_mem_eraseIdx_of_nodup {α : Type} {l : List α} {i : Nat} {a : α}
    (hnd : l.Nodup) (h : l[i]? = some a) : a ∉ l.eraseIdx i := by
  induction l generalizing i with
  | nil => simp at h
  | cons b t ih =>
    obtain ⟨hbt, htnd⟩ := List.nodup_cons.mp hnd
    cases i with
    | zero =>
      simp at h
      subst h
      simpa [List.eraseIdx] using hbt
    | succ n =>
      simp at h
      simp only [List.eraseIdx, List.mem_cons, not_or]
      constructor
      · intro hab
        subst hab
        exact hbt (List.getElem?_mem h)
      · exact ih htnd h

theorem findIndex_spec {p : Card → Bool} {l : List Card} {i : Nat}
    (h : findIndex p l = some i) : ∃ c, l[i]? = some c ∧ p c = true := by
  induction l generalizing i with
  | nil => simp [findIndex] at h
  | cons a t ih =>
    by_cases hp : p a
    · simp [findIndex, hp] at h
      subst h
      exact ⟨a, by simp, hp⟩
    · simp [findIndex, hp] at h
      obtain ⟨j, hj, hji⟩ := h
      obtain ⟨c, hc, hpc⟩ := ih hj
      subst hji
      exact ⟨c, by simpa using hc, hpc⟩

theorem stripRefs_id (cid : String) (c : Card) : (stripRefs cid c).id = c.id := rfl

theorem map_id_of_delete (cid : String) (cards : List Card) (i : Nat) :
    (((cards.map (stripRefs cid)).eraseIdx i).map Card.id) =
      (cards.map Card.id).eraseIdx i := by
  rw [eraseIdx_map_comm, eraseIdx_map_comm, List.map_map]
  rfl

/-! ### C1: delete cascade -/

/-- C1.  In a repository with pairwise-distinct card ids, after
`deleteCard cid` succeeds, `getCard cid` returns none and no remaining
card's `adjacentLocations`, `presentCharacters` or `bonds` list contains
`cid`. -/
theorem delete_cascade (cid : String) (cards cards' : List Card)
    (hids : (cards.map Card.id).Nodup)
    (h : deleteCard cid cards = (true, cards')) :
    getCard cid cards' = none ∧
    ∀ c' ∈ cards',
      (∀ l, c'.adjacentLocations = some l → cid ∉ l) ∧
      (∀ l, c'.presentCharacters = some l → cid ∉ l) ∧
      (∀ l, c'.bonds = some l → cid ∉ l) := by
  unfold deleteCard at h
  cases hf : findIndex (fun c => c.id == cid) cards with
  | none => rw [hf] at h; simp at h
  | some i =>
    rw [hf] at h
    have hc' : cards' = (cards.map (stripRefs cid)).eraseIdx i := by
      have := (Prod.mk.injEq _ _ _ _).mp h
      exact this.2.symm
    subst hc'
    constructor
    · rw [getCard, List.find?_eq_none]
      intro x hx
      obtain ⟨c, hci, hcp⟩ := findIndex_spec hf
      have hcid : (cards.map Card.id)[i]? = some cid := by
        rw [List.getElem?_map, hci]
        simpa using hcp
      have hnm : cid ∉ (cards.map Card.id).eraseIdx i :=
        not_mem_eraseIdx_of_nodup hids hcid
      have hxid : x.id ∈ (cards.map Card.id).eraseIdx i := by
        rw [← map_id_of_delete cid cards i]
        exact List.mem_map_of_mem Card.id hx
      simp only [beq_iff_eq]
      intro hxe
      rw [hxe] at hxid
      exact hnm hxid
    · intro c' hmem
      have hmem' : c' ∈ cards.map (stripRefs cid) :=
        List.mem_of_mem_eraseIdx hmem
      obtain ⟨c, _, hcc⟩ := List.mem_map.mp hmem'
      subst hcc
      refine ⟨?_, ?_, ?_⟩ <;>
      · intro l hl hml
        simp only [stripRefs, Option.map_eq_some'] at hl
        obtain ⟨l₀, hsome, hfil⟩ := hl
        subst hfil
        simp [List.mem_filter] at hml

/-- C1 at a concrete input: delete the character `sampleC`, which is
referenced from `sampleA.adjacentLocations`, `sampleB.presentCharacters`
and `sampleD.bonds`. -/
theorem delete_cascade_witness :
    getCard "c" (deleteCard "c" [sampleA, sampleB, sampleC, sampleD]).2 = none ∧
    ∀ c' ∈ (deleteCard "c" [sampleA, sampleB, sampleC, sampleD]).2,
      (∀ l, c'.adjacentLocations = some l → "c" ∉ l) ∧
      (∀ l, c'.presentCharacters = some l → "c" ∉ l) ∧
      (∀ l, c'.bonds = some l → "c" ∉ l) :=
  delete_cascade "c" [sampleA, sampleB, sampleC, sampleD]
    (deleteCard "c" [sampleA, sampleB, sampleC, sampleD]).2
    (by decide) (by decide)

/-! ### C10: delete only strips references -/

theorem refStripOnly_stripRefs (cid : String) (c : Card) :
    refStripOnly cid c (stripRefs cid c) := by
  unfold refStripOnly stripRefs
  exact ⟨rfl, rfl, rfl, rfl, rfl, rfl, rfl, rfl, rfl, rfl, rfl, rfl, rfl, rfl,
    rfl, rfl, rfl, rfl, rfl, rfl, rfl⟩

/-- C10.  When `deleteCard cid` succeeds it removes exactly the card found at
some index `i` (whose id is `cid`); every remaining card, in its original
relative order, differs from its pre-delete value only by the deleted id
being filtered out of its three reference lists — in particular `updatedAt`
and every other field are untouched. -/
theorem delete_frame (cid : String) (cards cards' : List Card)
    (h : deleteCard cid cards = (true, cards')) :
    ∃ (i : Nat) (c : Card), cards[i]? = some c ∧ c.id = cid ∧
      cards'.length + 1 = cards.length ∧
      ∀ (j : Nat) (co cn : Card),
        (cards.eraseIdx i)[j]? = some co → cards'[j]? = some cn →
        refStripOnly cid co cn := by
  unfold deleteCard at h
  cases hf : findIndex (fun c => c.id == cid) cards with
  | none => rw [hf] at h; simp at h
  | some i =>
    rw [hf] at h
    have hc' : cards' = (cards.map (stripRefs cid)).eraseIdx i := by
      have := (Prod.mk.injEq _ _ _ _).mp h
      exact this.2.symm
    obtain ⟨c, hci, hcp⟩ := findIndex_spec hf
    have hilt : i < cards.length := getElem?_lt_length hci
    refine ⟨i, c, hci, by simpa using hcp, ?_, ?_⟩
    · rw [hc', List.length_eraseIdx_of_lt (by simpa using hilt)]
      simp
      omega
    · intro j co cn hco hcn
      rw [hc', eraseIdx_map_comm, List.getElem?_map, hco] at hcn
      have : cn = stripRefs cid co := by
        simpa using hcn.symm
      rw [this]
      exact refStripOnly_stripRefs cid co

/-- C10 at a concrete input. -/
theorem delete_frame_witness :
    ∃ (i : Nat) (c : Card), ([sampleA, sampleB, sampleC, sampleD] : List Card)[i]? = some c ∧
      c.id = "c" ∧
      (deleteCard "c" [sampleA, sampleB, sampleC, sampleD]).2.length + 1 =
        ([sampleA, sampleB, sampleC, sampleD] : List Card).length ∧
      ∀ (j : Nat) (co cn : Card),
        (([sampleA, sampleB, sampleC, sampleD] : List Card).eraseIdx i)[j]? = some co →
        (deleteCard "c" [sampleA, sampleB, sampleC, sampleD]).2[j]? = some cn →
        refStripOnly "c" co cn :=
  delete_frame "c" [sampleA, sampleB, sampleC, sampleD]
    (deleteCard "c" [sampleA, sampleB, sampleC, sampleD]).2 (by decide)

/-! ### C5: create -/

/-- Counterexample to C5 as stated: `createCard` spreads the caller fields
over the generated defaults, so a caller-supplied `id` overrides the fresh
one.  With the collection `[sampleA]` (whose card has id "a"), the generator
output "card_9_z" is fresh, yet `create({id: "a"})` produces a card whose id
collides with the existing card's id. -/
theorem create_claim_counterexample :
    "card_9_z" ∉ ([sampleA] : List Card).map Card.id ∧
    (createCard "card_9_z" "t1" { id := some "a" } [sampleA]).1.id ∈
      ([sampleA] : List Card).map Card.id := by
  decide

/-- C5 (amended).  For a caller-supplied field set that does not itself
override `id`, `createdAt` or `updatedAt`, and a generated id not already in
use, `createCard` gives the new card the fresh non-colliding id, sets both
timestamps to now, fills every other field from the caller data, appends the
card to the end of the collection and returns it. -/
theorem create_fresh (genId now : String) (d : PartialCard) (cards : List Card)
    (hid : d.id = none) (hca : d.createdAt = none) (hua : d.updatedAt = none)
    (hfresh : genId ∉ cards.map Card.id) :
    (createCard genId now d cards).1.id = genId ∧
    (createCard genId now d cards).1.id ∉ cards.map Card.id ∧
    (createCard genId now d cards).1.createdAt = now ∧
    (createCard genId now d cards).1.updatedAt = now ∧
    (createCard genId now d cards).2 = cards ++ [(createCard genId now d cards).1] ∧
    (createCard genId now d cards).1.type = d.type ∧
    (createCard genId now d cards).1.name = d.name ∧
    (createCard genId now d cards).1.description = d.description ∧
    (createCard genId now d cards).1.image = d.image ∧
    (createCard genId now d cards).1.imagePositionX = d.imagePositionX ∧
    (createCard genId now d cards).1.imagePositionY = d.imagePositionY ∧
    (createCard genId now d cards).1.imagePosition = d.imagePosition ∧
    (createCard genId now d cards).1.consequences = d.consequences ∧
    (createCard genId now d cards).1.hooks = d.hooks ∧
    (createCard genId now d cards).1.adjacentLocations = d.adjacentLocations ∧
    (createCard genId now d cards).1.presentCharacters = d.presentCharacters ∧
    (createCard genId now d cards).1.occupation = d.occupation ∧
    (createCard genId now d cards).1.age = d.age ∧
    (createCard genId now d cards).1.appearance = d.appearance ∧
    (createCard genId now d cards).1.personality = d.personality ∧
    (createCard genId now d cards).1.history = d.history ∧
    (createCard genId now d cards).1.secrets = d.secrets ∧
    (createCard genId now d cards).1.bonds = d.bonds := by
  have h1 : (createCard genId now d cards).1.id = genId := by
    simp [createCard, hid]
  exact ⟨h1, by rw [h1]; exact hfresh, by simp [createCard, hca], by simp [createCard, hua],
    rfl, rfl, rfl, rfl, rfl, rfl, rfl, rfl, rfl, rfl, rfl, rfl, rfl, rfl, rfl,
    rfl, rfl, rfl, rfl⟩

/-- C5 (amended) at a concrete input. -/
theorem create_fresh_witness :
    (createCard "g" "t1" { name := some "N" } [sampleA]).1.id = "g" ∧
    (createCard "g" "t1" { name := some "N" } [sampleA]).1.id ∉
      ([sampleA] : List Card).map Card.id ∧
    (createCard "g" "t1" { name := some "N" } [sampleA]).1.createdAt = "t1" ∧
    (createCard "g" "t1" { name := some "N" } [sampleA]).1.updatedAt = "t1" ∧
    (createCard "g" "t1" { name := some "N" } [sampleA]).2 =
      [sampleA] ++ [(createCard "g" "t1" { name := some "N" } [sampleA]).1] ∧
    (createCard "g" "t1" { name := some "N" } [sampleA]).1.type =
      (({ name := some "N" } : PartialCard)).type ∧
    (createCard "g" "t1" { name := some "N" } [sampleA]).1.name =
      (({ name := some "N" } : PartialCard)).name ∧
    (createCard "g" "t1" { name := some "N" } [sampleA]).1.description =
      (({ name := some "N" } : PartialCard)).description ∧
    (createCard "g" "t1" { name := some "N" } [sampleA]).1.image =
      (({ name := some "N" } : PartialCard)).image ∧
    (createCard "g" "t1" { name := some "N" } [sampleA]).1.imagePositionX =
      (({ name := some "N" } : PartialCard)).imagePositionX ∧
    (createCard "g" "t1" { name := some "N" } [sampleA]).1.imagePositionY =
      (({ name := some "N" } : PartialCard)).imagePositionY ∧
    (createCard "g" "t1" { name := some "N" } [sampleA]).1.imagePosition =
      (({ name := some "N" } : PartialCard)).imagePosition ∧
    (createCard "g" "t1" { name := some "N" } [sampleA]).1.consequences =
      (({ name := some "N" } : PartialCard)).consequences ∧
    (createCard "g" "t1" { name := some "N" } [sampleA]).1.hooks =
      (({ name := some "N" } : PartialCard)).hooks ∧
    (createCard "g" "t1" { name := some "N" } [sampleA]).1.adjacentLocations =
      (({ name := some "N" } : PartialCard)).adjacentLocations ∧
    (createCard "g" "t1" { name := some "N" } [sampleA]).1.presentCharacters =
      (({ name := some "N" } : PartialCard)).presentCharacters ∧
    (createCard "g" "t1" { name := some "N" } [sampleA]).1.occupation =
      (({ name := some "N" } : PartialCard)).occupation ∧
    (createCard "g" "t1" { name := some "N" } [sampleA]).1.age =
      (({ name := some "N" } : PartialCard)).age ∧
    (createCard "g" "t1" { name := some "N" } [sampleA]).1.appearance =
      (({ name := some "N" } : PartialCard)).appearance ∧
    (createCard "g" "t1" { name := some "N" } [sampleA]).1.personality =
      (({ name := some "N" } : PartialCard)).personality ∧
    (createCard "g" "t1" { name := some "N" } [sampleA]).1.history =
      (({ name := some "N" } : PartialCard)).history ∧
    (createCard "g" "t1" { name := some "N" } [sampleA]).1.secrets =
      (({ name := some "N" } : PartialCard)).secrets ∧
    (createCard "g" "t1" { name := some "N" } [sampleA]).1.bonds =
      (({ name := some "N" } : PartialCard)).bonds :=
  create_fresh "g" "t1" { name := some "N" } [sampleA] rfl rfl rfl (by decide)

/-! ### C6: update merge -/

theorem mergedFrame_mergeCard (c : Card) (d : PartialCard) (now : String) :
    mergedFrame c d now (mergeCard c d now) := by
  unfold mergedFrame mergeCard
  repeat' apply And.intro
  all_goals first
    | rfl
    | (intro h; simp [h])
    | (intro v h; simp [h])

/-- C6.  When `updateCard` succeeds, the collection is unchanged except that
the first card `c` whose id matches is replaced, in place, by the returned
card `c'`; `c'` refreshes `updatedAt`, takes exactly the fields present in
the partial, and retains every other field of `c` (including `createdAt`)
unchanged. -/
theorem update_merge (now uid : String) (d : PartialCard)
    (cards cards' : List Card) (c' : Card)
    (h : updateCard now uid d cards = (some c', cards')) :
    ∃ (i : Nat) (c : Card), cards[i]? = some c ∧ c.id = uid ∧
      cards' = cards.set i c' ∧ mergedFrame c d now c' := by
  unfold updateCard at h
  split at h
  case h_2 => simp at h
  case h_1 i hf =>
    split at h
    case h_2 => simp at h
    case h_1 c hg =>
      have hp := (Prod.mk.injEq _ _ _ _).mp h
      have hc' : c' = mergeCard c d now := by
        have := hp.1
        exact (Option.some.injEq _ _ ▸ this).symm
      refine ⟨i, c, hg, ?_, ?_, ?_⟩
      · obtain ⟨c₀, hc₀, hcp⟩ := findIndex_spec hf
        rw [hg] at hc₀
        cases hc₀
        simpa using hcp
      · rw [← hp.2, hc']
      · rw [hc']
        exact mergedFrame_mergeCard c d now

/-- C6 at a concrete input: a single-field partial `{description: "D"}`. -/
theorem update_merge_witness :
    ∃ (i : Nat) (c : Card), ([sampleA, sampleB] : List Card)[i]? = some c ∧
      c.id = "a" ∧
      (updateCard "t2" "a" { description := some "D" } [sampleA, sampleB]).2 =
        [sampleA, sampleB].set i
          { sampleA with description := some "D", updatedAt := "t2" } ∧
      mergedFrame c { description := some "D" } "t2"
        { sampleA with description := some "D", updatedAt := "t2" } :=
  update_merge "t2" "a" { description := some "D" } [sampleA, sampleB]
    (updateCard "t2" "a" { description := some "D" } [sampleA, sampleB]).2
    { sampleA with description := some "D", updatedAt := "t2" } (by decide)

/-! ### C7: navigation-history bound -/

theorem pushToHistory_foldl (l h : List String) (hcap : h.length ≤ 20) :
    List.foldl (fun acc x => pushToHistory x acc) h l =
      (h ++ l).drop (h.length + l.length - 20) := by
  induction l generalizing h with
  | nil =>
    rw [List.foldl_nil, List.append_nil]
    have h0 : h.length + ([] : List String).length - 20 = 0 := by
      simp
      omega
    rw [h0, List.drop_zero]
  | cons x t ih =>
    rw [List.foldl_cons]
    by_cases hfull : h.length = 20
    · have hgt : (h ++ [x]).length > 20 := by simp [hfull]
      have hpush : pushToHistory x h = (h ++ [x]).tail := by
        simp only [pushToHistory]
        rw [if_pos hgt]
      cases h with
      | nil => simp at hfull
      | cons a s =>
        have htail : ((a :: s) ++ [x]).tail = s ++ [x] := rfl
        rw [hpush, htail, ih (s ++ [x]) (by simp at hfull ⊢; omega)]
        have hs : s.length = 19 := by simp at hfull; omega
        have h1 : (s ++ [x]).length + t.length - 20 = t.length := by
          simp [hs]
        have h2 : (a :: s).length + (x :: t).length - 20 = t.length + 1 := by
          simp [hs]
        rw [h1, h2]
        have hassoc : (s ++ [x]) ++ t = s ++ x :: t := by simp
        rw [hassoc]
        rfl
    · have hlt : h.length < 20 := by omega
      have hngt : ¬((h ++ [x]).length > 20) := by simp; omega
      have hpush : pushToHistory x h = h ++ [x] := by
        simp only [pushToHistory]
        rw [if_neg hngt]
      rw [hpush, ih (h ++ [x]) (by simp; omega)]
      have h1 : (h ++ [x]).length + t.length - 20 = h.length + (x :: t).length - 20 := by
        simp
        omega
      rw [h1]
      have hassoc : (h ++ [x]) ++ t = h ++ x :: t := by simp
      rw [hassoc]

/-- C7.  Pushing 25 distinct ids into an empty navigation history leaves
exactly the 20 most recent ids in push order: the first 5 are evicted. -/
theorem history_bound (ids : List String) (h25 : ids.length = 25)
    (_hnd : ids.Nodup) :
    List.foldl (fun acc x => pushToHistory x acc) [] ids = ids.drop 5 := by
  rw [pushToHistory_foldl ids [] (by simp)]
  simp [h25]

/-- C7 at a concrete input: the 25 ids "0" … "24". -/
theorem history_bound_witness :
    List.foldl (fun acc x => pushToHistory x acc) []
        ((List.range 25).map toString) =
      ((List.range 25).map toString).drop 5 :=
  history_bound ((List.range 25).map toString) (by simp) (by decide)

/-! ### C8, C9: search -/

theorem charsContains_nil (l : List Char) : charsContains [] l = true := by
  cases l with
  | nil => rfl
  | cons b bs => rfl

theorem strToLower_ne_empty {q : String} (h : q ≠ "") : strToLower q ≠ "" := by
  intro he
  apply h
  cases q with
  | mk d =>
    cases d with
    | nil => rfl
    | cons a t => exact (List.cons_ne_nil _ _ (congrArg String.data he)).elim

theorem strIncludes_empty_hay {s : String} (hs : s ≠ "") :
    strIncludes "" s = false := by
  cases s with
  | mk d =>
    cases d with
    | nil => exact absurd rfl hs
    | cons a t => rfl

theorem matchesQuery_eq_spec (q : String) (c : Card) (n : String)
    (hn : c.name = some n) :
    matchesQuery (strToLower q) c = some (specMatches q c) := by
  cases hd : c.description with
  | none => simp only [matchesQuery, specMatches, hn, hd]
  | some dd =>
    by_cases hde : dd = ""
    · subst hde
      by_cases hq : q = ""
      · subst hq
        have hninc : strIncludes (strToLower n) (strToLower "") = true := by
          show charsContains (strToLower "").toList (strToLower n).toList = true
          exact charsContains_nil _
        simp only [matchesQuery, specMatches, hn, hd, hninc]
        simp
      · have hdinc : strIncludes (strToLower "") (strToLower q) = false := by
          show strIncludes "" (strToLower q) = false
          exact strIncludes_empty_hay (strToLower_ne_empty hq)
        simp only [matchesQuery, specMatches, hn, hd, hdinc]
        simp
    · have hbne : (dd != "") = true := by simpa using hde
      simp only [matchesQuery, specMatches, hn, hd, hbne, Bool.true_and]

theorem filterMatches_eq_filter (q : String) (cards : List Card)
    (h : ∀ c ∈ cards, c.name ≠ none) :
    filterMatches (strToLower q) cards = some (cards.filter (specMatches q)) := by
  induction cards with
  | nil => rfl
  | cons c cs ih =>
    have hc : c.name ≠ none := h c (by simp)
    obtain ⟨n, hn⟩ := Option.ne_none_iff_exists'.mp hc
    simp only [filterMatches]
    rw [matchesQuery_eq_spec q c n hn, ih (fun c' hc' => h c' (by simp [hc']))]
    rw [List.filter_cons]

/-- C8.  Over a repository in which every card has a `name` (the data model
requires one), `searchCards q` returns exactly the cards whose name, or
description when present, contains `q` case-insensitively, in collection
order — i.e. the collection filtered by the specification predicate — and in
particular the empty set when no card matches. -/
theorem search_exact (q : String) (cards : List Card)
    (h : ∀ c ∈ cards, c.name ≠ none) :
    searchCards q cards = some (cards.filter (specMatches q)) ∧
    ((∀ c ∈ cards, specMatches q c = false) → searchCards q cards = some []) := by
  have h1 : searchCards q cards = some (cards.filter (specMatches q)) :=
    filterMatches_eq_filter q cards h
  refine ⟨h1, fun hall => ?_⟩
  rw [h1]
  congr 1
  rw [List.filter_eq_nil_iff]
  intro x hx
  simp [hall x hx]

/-- C8 at a concrete input. -/
theorem search_exact_witness :
    searchCards "TAV" [sampleA, sampleD] =
      some (([sampleA, sampleD] : List Card).filter (specMatches "TAV")) ∧
    ((∀ c ∈ ([sampleA, sampleD] : List Card), specMatches "TAV" c = false) →
      searchCards "TAV" [sampleA, sampleD] = some []) :=
  search_exact "TAV" [sampleA, sampleD] (by decide)

theorem filterMatches_none_of_nameless (lq : String) (cards : List Card)
    (c : Card) (hc : c ∈ cards) (hn : c.name = none) :
    filterMatches lq cards = none := by
  induction cards with
  | nil => simp at hc
  | cons a t ih =>
    rcases List.mem_cons.mp hc with rfl | hmem
    · have hm : matchesQuery lq c = none := by
        unfold matchesQuery
        rw [hn]
      simp only [filterMatches]
      rw [hm]
    · simp only [filterMatches]
      rw [ih hmem]
      cases matchesQuery lq a <;> rfl

/-- C9.  `createCard` performs no validation, so it can produce a card with
no `name` field; `searchCards` then reads `name` unguardedly and fails
(throws) instead of returning a result set, for every query. -/
theorem search_nameless (q genId now : String) (d : PartialCard)
    (cards : List Card) (hname : d.name = none) :
    searchCards q ((createCard genId now d cards).2) = none := by
  unfold searchCards
  apply filterMatches_none_of_nameless _ _ (createCard genId now d cards).1
  · have h2 : (createCard genId now d cards).2 =
        cards ++ [(createCard genId now d cards).1] := rfl
    rw [h2]
    exact List.mem_append_right _ (by simp)
  · exact hname

/-- C9 at a concrete input: a card created with an empty field set. -/
theorem search_nameless_witness :
    searchCards "x" ((createCard "g" "t1" {} [sampleA]).2) = none :=
  search_nameless "x" "g" "t1" {} [sampleA] rfl

/-! ### C4: malformed import rejected -/

/-- C4.  A payload that fails to parse, lacks a `cards` field, or whose
`cards` field is not an array is rejected with the single MalformedDocument
outcome and the card collection is left completely unchanged — there is no
partial mutation. -/
theorem malformed_import_rejected (fresh : List String) (now : String)
    (cards : List Card) :
    importCards fresh now .unparsable cards = (.malformedDocument, cards) ∧
    importCards fresh now (.parsed none) cards = (.malformedDocument, cards) ∧
    importCards fresh now (.parsed (some .nonArray)) cards =
      (.malformedDocument, cards) :=
  ⟨rfl, rfl, rfl⟩

/-! ### The id mapping built by the first import pass -/

theorem lookup_keys_none {m : List (String × String)} {k : String}
    (h : ∀ p ∈ m, p.1 ≠ k) : List.lookup k m = none := by
  induction m with
  | nil => rfl
  | cons a t ih =>
    cases a with
    | mk k1 v1 =>
      have hk : (k == k1) = false := by
        have h1 := h (k1, v1) (by simp)
        simp only [beq_eq_false_iff_ne, ne_eq]
        intro he
        exact h1 he.symm
      simp only [List.lookup, hk]
      exact ih (fun p hp => h p (by simp [hp]))

theorem buildIdMapping_keys {cs : List Card} {fresh : List String}
    {p : String × String} (hp : p ∈ buildIdMapping cs fresh) :
    p.1 ∈ cs.map Card.id := by
  unfold buildIdMapping at hp
  obtain ⟨⟨c, f⟩, hmem, hpe⟩ := List.mem_map.mp hp
  rw [← hpe]
  exact List.mem_map_of_mem Card.id (List.of_mem_zip hmem).1

theorem mapLookup_build {cs : List Card} {fresh : List String}
    (hlen : fresh.length = cs.length) (hnd : (cs.map Card.id).Nodup) :
    ∀ (i : Nat) (ci : Card) (fi : String), cs[i]? = some ci →
      fresh[i]? = some fi →
      mapLookup (buildIdMapping cs fresh) ci.id = some fi := by
  induction cs generalizing fresh with
  | nil => intro i ci fi hci _; simp at hci
  | cons c ct ih =>
    cases fresh with
    | nil => simp at hlen
    | cons f ft =>
      intro i ci fi hci hfi
      have hbuild : buildIdMapping (c :: ct) (f :: ft) =
          (c.id, f) :: buildIdMapping ct ft := rfl
      cases i with
      | zero =>
        simp only [List.getElem?_cons_zero, Option.some.injEq] at hci hfi
        subst hci
        subst hfi
        unfold mapLookup
        rw [hbuild, List.reverse_cons, List.lookup_append]
        have hnone : List.lookup c.id (buildIdMapping ct ft).reverse = none := by
          apply lookup_keys_none
          intro p hp
          have hmem : p.1 ∈ ct.map Card.id :=
            buildIdMapping_keys (List.mem_reverse.mp hp)
          intro he
          rw [he] at hmem
          exact (List.nodup_cons.mp hnd).1 hmem
        rw [hnone]
        simp [List.lookup]
      | succ n =>
        simp only [List.getElem?_cons_succ] at hci hfi
        have ihx := ih (by simpa using hlen) (List.nodup_cons.mp hnd).2
          n ci fi hci hfi
        unfold mapLookup at ihx ⊢
        rw [hbuild, List.reverse_cons, List.lookup_append, ihx]
        rfl

theorem remap_ids {cs : List Card} {fresh : List String} (now : String)
    (hlen : fresh.length = cs.length) (hnd : (cs.map Card.id).Nodup) :
    (cs.map (remapCard (buildIdMapping cs fresh) now)).map Card.id = fresh := by
  apply List.ext_getElem?_iff.mpr
  intro i
  rw [List.getElem?_map, List.getElem?_map]
  cases hci : cs[i]? with
  | none =>
    have hle : cs.length ≤ i := List.getElem?_eq_none_iff.mp hci
    have : fresh[i]? = none := List.getElem?_eq_none_iff.mpr (hlen ▸ hle)
    rw [this]
    rfl
  | some ci =>
    have hilt : i < cs.length := getElem?_lt_length hci
    have hif : i < fresh.length := by rw [hlen]; exact hilt
    have hfi : fresh[i]? = some fresh[i] := List.getElem?_eq_getElem hif
    rw [hfi]
    have hlook := mapLookup_build hlen hnd i ci fresh[i] hci hfi
    simp [remapCard, hlook]

theorem remapRefList_mem {m : List (String × String)} {li : List String}
    {e fk : String} (he : e ∈ li) (hlook : mapLookup m e = some fk)
    (hfk : fk ≠ "") : fk ∈ remapRefList m li := by
  unfold remapRefList
  apply List.mem_filter.mpr
  constructor
  · have hre : remapEntry m e = fk := by
      unfold remapEntry
      rw [hlook]
      simp [hfk]
    rw [← hre]
    exact List.mem_map_of_mem _ he
  · simpa using hfk

/-! ### C3: import never collides -/

/-- C3.  Importing a well-formed document of M cards (pairwise-distinct ids,
as any exported document has) into a repository of N cards — assuming the id
generator honours its contract of producing ids distinct from each other and
from every existing id — reports M imported cards and yields a collection of
N + M cards whose ids are pairwise distinct. -/
theorem import_no_collision (s cs : List Card) (fresh : List String)
    (now : String)
    (hlen : fresh.length = cs.length)
    (hfn : fresh.Nodup)
    (hdisj : ∀ f ∈ fresh, f ∉ s.map Card.id)
    (hs : (s.map Card.id).Nodup)
    (hcs : (cs.map Card.id).Nodup) :
    (importCards fresh now (.parsed (some (.arr cs))) s).1 = .ok cs.length ∧
    (importCards fresh now (.parsed (some (.arr cs))) s).2.length =
      s.length + cs.length ∧
    ((importCards fresh now (.parsed (some (.arr cs))) s).2.map Card.id).Nodup := by
  have h2 : (importCards fresh now (.parsed (some (.arr cs))) s).2 =
      s ++ cs.map (remapCard (buildIdMapping cs fresh) now) := rfl
  refine ⟨rfl, ?_, ?_⟩
  · rw [h2]
    simp
  · rw [h2, List.map_append, remap_ids now hlen hcs, List.nodup_append]
    exact ⟨hs, hfn, fun a ha hf => hdisj a hf ha⟩

/-- C3 at a concrete input: one card imported into a one-card repository. -/
theorem import_no_collision_witness :
    (importCards ["n1"] "t2" (.parsed (some (.arr [sampleC]))) [sampleA]).1 =
      .ok ([sampleC] : List Card).length ∧
    (importCards ["n1"] "t2" (.parsed (some (.arr [sampleC]))) [sampleA]).2.length =
      ([sampleA] : List Card).length + ([sampleC] : List Card).length ∧
    ((importCards ["n1"] "t2" (.parsed (some (.arr [sampleC]))) [sampleA]).2.map
      Card.id).Nodup :=
  import_no_collision [sampleA] [sampleC] ["n1"] "t2" (by decide) (by decide)
    (by decide) (by decide) (by decide)

/-! ### C2: export / import round trip -/

theorem sameNonRefFields_remap (m : List (String × String)) (now : String)
    (c : Card) : sameNonRefFields c (remapCard m now c) := by
  unfold sameNonRefFields remapCard
  exact ⟨rfl, rfl, rfl, rfl, rfl, rfl, rfl, rfl, rfl, rfl, rfl, rfl, rfl,
    rfl, rfl⟩

/-- C2.  Exporting a collection of N cards (with pairwise-distinct ids) and
importing the produced document into an empty repository — with generator
outputs that are truthy, as every `generateId` value is — yields exactly N
cards; the i-th imported card agrees with the i-th original on every field
other than `id`, `createdAt`, `updatedAt` and the reference lists, and
whenever an original card's `adjacentLocations`, `presentCharacters` or
`bonds` list pointed at the k-th exported card, the i-th imported card's
corresponding list points at the (re-identified) k-th imported card. -/
theorem export_import_round_trip (cards : List Card) (doc : ExportDoc)
    (fresh : List String) (expDate now : String)
    (hexp : exportCards expDate cards = some doc)
    (hlen : fresh.length = cards.length)
    (hfe : ∀ f ∈ fresh, f ≠ "")
    (hids : (cards.map Card.id).Nodup) :
    (importCards fresh now (.parsed (some (.arr doc.cards))) []).1 =
      .ok cards.length ∧
    (importCards fresh now (.parsed (some (.arr doc.cards))) []).2.length =
      cards.length ∧
    (∀ (i : Nat) (ci ci' : Card), cards[i]? = some ci →
      (importCards fresh now (.parsed (some (.arr doc.cards))) []).2[i]? =
        some ci' →
      sameNonRefFields ci ci') ∧
    (∀ (i k : Nat) (ci ck ci' ck' : Card),
      cards[i]? = some ci → cards[k]? = some ck →
      (importCards fresh now (.parsed (some (.arr doc.cards))) []).2[i]? =
        some ci' →
      (importCards fresh now (.parsed (some (.arr doc.cards))) []).2[k]? =
        some ck' →
      (∀ li, ci.adjacentLocations = some li → ck.id ∈ li →
        ∃ li', ci'.adjacentLocations = some li' ∧ ck'.id ∈ li') ∧
      (∀ li, ci.presentCharacters = some li → ck.id ∈ li →
        ∃ li', ci'.presentCharacters = some li' ∧ ck'.id ∈ li') ∧
      (∀ li, ci.bonds = some li → ck.id ∈ li →
        ∃ li', ci'.bonds = some li' ∧ ck'.id ∈ li')) := by
  have hdc : doc.cards = cards := by
    unfold exportCards at hexp
    split at hexp
    · exact absurd hexp (by simp)
    · have h1 := (Option.some.injEq _ _).mp hexp
      rw [← h1]
  rw [hdc]
  have h2 : (importCards fresh now (.parsed (some (.arr cards))) []).2 =
      cards.map (remapCard (buildIdMapping cards fresh) now) := rfl
  refine ⟨rfl, ?_, ?_, ?_⟩
  · rw [h2]
    simp
  · intro i ci ci' hci hci'
    rw [h2, List.getElem?_map, hci] at hci'
    have hci'' : ci' = remapCard (buildIdMapping cards fresh) now ci := by
      simpa using hci'.symm
    rw [hci'']
    exact sameNonRefFields_remap _ now ci
  · intro i k ci ck ci' ck' hci hck hci' hck'
    rw [h2, List.getElem?_map, hci] at hci'
    rw [h2, List.getElem?_map, hck] at hck'
    have hci'' : ci' = remapCard (buildIdMapping cards fresh) now ci := by
      simpa using hci'.symm
    have hck'' : ck' = remapCard (buildIdMapping cards fresh) now ck := by
      simpa using hck'.symm
    have hklt : k < fresh.length := by
      rw [hlen]
      exact getElem?_lt_length hck
    have hfk : fresh[k]? = some fresh[k] := List.getElem?_eq_getElem hklt
    have hlook := mapLookup_build hlen hids k ck fresh[k] hck hfk
    have hkid : ck'.id = fresh[k] := by
      rw [hck'']
      simp [remapCard, hlook]
    have hfkne : fresh[k] ≠ "" := hfe fresh[k] (List.getElem?_mem hfk)
    refine ⟨?_, ?_, ?_⟩ <;>
    · intro li hli hmem
      rw [hci'', hkid]
      refine ⟨remapRefList (buildIdMapping cards fresh) li, ?_, ?_⟩
      · simp [remapCard, hli]
      · exact remapRefList_mem hmem hlook hfkne

/-- C2 at a concrete input: two cards, the first referencing the second. -/
theorem export_import_round_trip_witness :
    (importCards ["n1", "n2"] "t2"
      (.parsed (some (.arr sampleDoc.cards))) []).1 =
      .ok ([sampleA, sampleC] : List Card).length ∧
    (importCards ["n1", "n2"] "t2"
      (.parsed (some (.arr sampleDoc.cards))) []).2.length =
      ([sampleA, sampleC] : List Card).length ∧
    (∀ (i : Nat) (ci ci' : Card),
      ([sampleA, sampleC] : List Card)[i]? = some ci →
      (importCards ["n1", "n2"] "t2"
        (.parsed (some (.arr sampleDoc.cards))) []).2[i]? = some ci' →
      sameNonRefFields ci ci') ∧
    (∀ (i k : Nat) (ci ck ci' ck' : Card),
      ([sampleA, sampleC] : List Card)[i]? = some ci →
      ([sampleA, sampleC] : List Card)[k]? = some ck →
      (importCards ["n1", "n2"] "t2"
        (.parsed (some (.arr sampleDoc.cards))) []).2[i]? = some ci' →
      (importCards ["n1", "n2"] "t2"
        (.parsed (some (.arr sampleDoc.cards))) []).2[k]? = some ck' →
      (∀ li, ci.adjacentLocations = some li → ck.id ∈ li →
        ∃ li', ci'.adjacentLocations = some li' ∧ ck'.id ∈ li') ∧
      (∀ li, ci.presentCharacters = some li → ck.id ∈ li →
        ∃ li', ci'.presentCharacters = some li' ∧ ck'.id ∈ li') ∧
      (∀ li, ci.bonds = some li → ck.id ∈ li →
        ∃ li', ci'.bonds = some li' ∧ ck'.id ∈ li')) :=
  export_import_round_trip [sampleA, sampleC] sampleDoc
    ["n1", "n2"] "d" "t2" (by decide) (by decide) (by decide) (by decide)

end CardStore
